import Mathlib

/-!
Shallow embedding of the NYC-311 data pipeline:
`src/nyc311_api.py` (paginated fetch with retry) and
`src/nyc311_cleaning.py` (seven-stage cleaning pipeline).

Rows fetched from the remote source are abstracted to opaque tokens
(`Nat`); the network is abstracted to a function giving, for each offset
and attempt number, the outcome of that request attempt.
-/

namespace NYC311

/-! ### Constants from `nyc311_api.py` -/

def DEFAULT_LIMIT : Nat := 25000

def MAX_LIMIT : Nat := 50000

def REQUEST_TIMEOUT : Nat := 120

def MAX_RETRIES : Nat := 3

def RETRY_DELAY : Nat := 2

/-! ### `_fetch_page`: one Socrata request with application-level retry

`PageOutcome` is what one HTTP attempt can produce after the transport
layer is done with it: a JSON row list, a read timeout, a connection
error, or a `raise_for_status` HTTP error (an `HTTPError` is not a
`ReadTimeout` nor a `ConnectionError`, so the `except` clause does not
catch it). -/

inductive PageOutcome where
  | ok (rows : List Nat)
  | readTimeout
  | connError
  | httpError (status : Nat)
deriving DecidableEq, Repr

inductive PageError where
  | readTimeout
  | connError
  | httpError (status : Nat)
deriving DecidableEq, Repr

/-- The `for attempt in range(MAX_RETRIES)` loop of `_fetch_page`,
with `remaining = MAX_RETRIES - attempt` as the structural fuel.
The loop body continues (after sleeping `RETRY_DELAY * 2 ** attempt`)
only when the caught exception is a read timeout or connection error and
`attempt < MAX_RETRIES - 1`, i.e. `remaining ≥ 2`; otherwise the
exception is re-raised at once.  Returns the result, the list of sleep
durations performed, and the number of attempts made. -/
def fetchPageGo (outcome : Nat → PageOutcome) :
    (remaining attempt : Nat) → (sleeps : List Nat) →
    Except PageError (List Nat) × List Nat × Nat
  | remaining, attempt, sleeps =>
    match outcome attempt, remaining with
    | .ok rows, _ => (.ok rows, sleeps, attempt + 1)
    | .httpError s, _ => (.error (.httpError s), sleeps, attempt + 1)
    | .readTimeout, r + 2 =>
        fetchPageGo outcome (r + 1) (attempt + 1)
          (sleeps ++ [RETRY_DELAY * 2 ^ attempt])
    | .readTimeout, _ => (.error .readTimeout, sleeps, attempt + 1)
    | .connError, r + 2 =>
        fetchPageGo outcome (r + 1) (attempt + 1)
          (sleeps ++ [RETRY_DELAY * 2 ^ attempt])
    | .connError, _ => (.error .connError, sleeps, attempt + 1)

/-- `_fetch_page(session, params, headers)`: run the retry loop from
attempt 0 with all `MAX_RETRIES` attempts available. -/
def fetch_page (outcome : Nat → PageOutcome) :
    Except PageError (List Nat) × List Nat × Nat :=
  fetchPageGo outcome MAX_RETRIES 0 []

/-! ### `fetch_nyc311_data`: validation plus the pagination loop -/

inductive FetchResult where
  | invalidLimit
  | fuelOut
  | pageError (e : PageError) (pages : Nat) (sleeps : List Nat)
  | done (rows : List Nat) (pages : Nat) (sleeps : List Nat)
deriving DecidableEq, Repr

/-- The `while True` pagination loop of `fetch_nyc311_data`.  Each
iteration issues one page request (`page_count += 1`), appends the rows,
and stops when a page comes back empty or shorter than `limit`;
otherwise it continues at `offset + limit`.  An exception from
`_fetch_page` propagates and aborts the fetch.  `fuel` bounds the
number of loop iterations (the real loop is unbounded). -/
def fetchGo (source : Nat → Nat → PageOutcome) (limit : Nat) :
    (fuel offset pageCount : Nat) → (acc sleeps : List Nat) → FetchResult
  | 0, _, _, _, _ => .fuelOut
  | fuel + 1, offset, pageCount, acc, sleeps =>
    match fetch_page (source offset) with
    | (.error e, ps, _) => .pageError e (pageCount + 1) (sleeps ++ ps)
    | (.ok rows, ps, _) =>
      if rows = [] then .done acc (pageCount + 1) (sleeps ++ ps)
      else if rows.length < limit then
        .done (acc ++ rows) (pageCount + 1) (sleeps ++ ps)
      else fetchGo source limit fuel (offset + limit) (pageCount + 1)
        (acc ++ rows) (sleeps ++ ps)

/-- `fetch_nyc311_data(app_token, limit, year)`: raises `ValueError`
when `limit <= 0 or limit > MAX_LIMIT`, before any request is issued;
otherwise runs the pagination loop from offset 0. -/
def fetch_nyc311_data (source : Nat → Nat → PageOutcome) (limit : Int)
    (fuel : Nat) : FetchResult :=
  if limit ≤ 0 ∨ limit > (MAX_LIMIT : Int) then .invalidLimit
  else fetchGo source limit.toNat fuel 0 0 [] []

/-! ### Helper lemmas about the fetcher -/

/-- A page whose first attempt succeeds returns at once: no sleeps, one
attempt. -/
theorem fetch_page_first_ok {outcome : Nat → PageOutcome} {rows : List Nat}
    (h : outcome 0 = .ok rows) :
    fetch_page outcome = (.ok rows, [], 1) := by
  simp [fetch_page, fetchPageGo, MAX_RETRIES, h]

/-- The pagination loop never reports an invalid limit. -/
theorem fetchGo_ne_invalidLimit (source : Nat → Nat → PageOutcome)
    (limit : Nat) :
    ∀ fuel offset pageCount acc sleeps,
      fetchGo source limit fuel offset pageCount acc sleeps ≠
        .invalidLimit := by
  intro fuel
  induction fuel with
  | zero => intro offset pageCount acc sleeps; simp [fetchGo]
  | succ n ih =>
    intro offset pageCount acc sleeps
    rw [fetchGo]
    rcases h : fetch_page (source offset) with ⟨res, ps, m⟩
    rcases res with e | rows
    · simp
    · by_cases hrows : rows = []
      · simp [hrows]
      · by_cases hlen : rows.length < limit
        · simp [hrows, hlen]
        · simpa [hrows, hlen] using ih (offset + limit) (pageCount + 1)
            (acc ++ rows) (sleeps ++ ps)

/-- Stop case of the pagination loop: an empty page ends the fetch with
the rows accumulated so far. -/
theorem fetchGo_stop_empty (source : Nat → Nat → PageOutcome)
    (limit fuel offset pageCount : Nat) (acc sleeps ps : List Nat)
    (m : Nat) (h : fetch_page (source offset) = (.ok [], ps, m)) :
    fetchGo source limit (fuel + 1) offset pageCount acc sleeps =
      .done acc (pageCount + 1) (sleeps ++ ps) := by
  rw [fetchGo, h]
  simp

/-- Stop case of the pagination loop: a non-empty page shorter than
`limit` is the last page; its rows are kept. -/
theorem fetchGo_stop_short (source : Nat → Nat → PageOutcome)
    (limit fuel offset pageCount : Nat) (acc sleeps ps rows : List Nat)
    (m : Nat) (h : fetch_page (source offset) = (.ok rows, ps, m))
    (hne : rows ≠ []) (hlt : rows.length < limit) :
    fetchGo source limit (fuel + 1) offset pageCount acc sleeps =
      .done (acc ++ rows) (pageCount + 1) (sleeps ++ ps) := by
  rw [fetchGo, h]
  simp [hne, hlt]

/-- Continue case of the pagination loop: a full page (not shorter than
`limit`) sends the loop on to the next offset. -/
theorem fetchGo_continue (source : Nat → Nat → PageOutcome)
    (limit fuel offset pageCount : Nat) (acc sleeps ps rows : List Nat)
    (m : Nat) (h : fetch_page (source offset) = (.ok rows, ps, m))
    (hne : rows ≠ []) (hge : ¬ rows.length < limit) :
    fetchGo source limit (fuel + 1) offset pageCount acc sleeps =
      fetchGo source limit fuel (offset + limit) (pageCount + 1)
        (acc ++ rows) (sleeps ++ ps) := by
  rw [fetchGo, h]
  simp [hne, hge]

/-- The retry loop makes at most `attempt + remaining` attempts in
total, provided at least one attempt is available. -/
theorem fetchPageGo_attempts_le (outcome : Nat → PageOutcome) :
    ∀ remaining, 1 ≤ remaining → ∀ attempt sleeps,
      (fetchPageGo outcome remaining attempt sleeps).2.2 ≤
        attempt + remaining := by
  intro remaining
  induction remaining using Nat.strong_induction_on with
  | _ remaining ih =>
    intro h1 attempt sleeps
    match remaining, h1 with
    | 1, _ =>
      conv_lhs => rw [fetchPageGo.eq_def]
      cases h : outcome attempt with
      | ok rows => simp only [h]; omega
      | readTimeout => simp only [h]; omega
      | connError => simp only [h]; omega
      | httpError s => simp only [h]; omega
    | (r + 2), _ =>
      conv_lhs => rw [fetchPageGo.eq_def]
      cases h : outcome attempt with
      | ok rows =>
        simp only [h]
        omega
      | httpError s =>
        simp only [h]
        omega
      | readTimeout =>
        simp only [h]
        have hrec := ih (r + 1) (by omega) (by omega) (attempt + 1)
          (sleeps ++ [RETRY_DELAY * 2 ^ attempt])
        omega
      | connError =>
        simp only [h]
        have hrec := ih (r + 1) (by omega) (by omega) (attempt + 1)
          (sleeps ++ [RETRY_DELAY * 2 ^ attempt])
        omega

/-- The application-level retry treats exactly read timeouts and
connection errors as retryable. -/
def retryable (o : PageOutcome) : Prop :=
  o = .readTimeout ∨ o = .connError

/-- One retryable failure with at least two attempts left: sleep
`RETRY_DELAY * 2 ^ attempt` and move to the next attempt. -/
theorem fetchPageGo_step_retry (outcome : Nat → PageOutcome)
    (r attempt : Nat) (sleeps : List Nat)
    (h : retryable (outcome attempt)) :
    fetchPageGo outcome (r + 2) attempt sleeps =
      fetchPageGo outcome (r + 1) (attempt + 1)
        (sleeps ++ [RETRY_DELAY * 2 ^ attempt]) := by
  conv_lhs => rw [fetchPageGo.eq_def]
  rcases h with h | h <;> simp only [h]

/-- After two retryable failures the loop is at its final attempt,
having slept 2 then 4 seconds. -/
theorem fetch_page_two_retryable {outcome : Nat → PageOutcome}
    (h0 : retryable (outcome 0)) (h1 : retryable (outcome 1)) :
    fetch_page outcome = fetchPageGo outcome 1 2 [2, 4] := by
  rw [fetch_page]
  calc fetchPageGo outcome MAX_RETRIES 0 []
      = fetchPageGo outcome (1 + 2) 0 [] := rfl
    _ = fetchPageGo outcome (1 + 1) (0 + 1)
          ([] ++ [RETRY_DELAY * 2 ^ 0]) := by
        exact fetchPageGo_step_retry outcome 1 0 [] h0
    _ = fetchPageGo outcome (0 + 1) (0 + 1 + 1)
          (([] ++ [RETRY_DELAY * 2 ^ 0]) ++ [RETRY_DELAY * 2 ^ (0 + 1)]) := by
        exact fetchPageGo_step_retry outcome 0 (0 + 1)
          ([] ++ [RETRY_DELAY * 2 ^ 0]) h1
    _ = fetchPageGo outcome 1 2 [2, 4] := by norm_num [RETRY_DELAY]

/-- Final attempt of the retry loop: whatever the outcome, the loop
ends here with no further sleep. -/
theorem fetchPageGo_last (outcome : Nat → PageOutcome) (attempt : Nat)
    (sleeps : List Nat) :
    fetchPageGo outcome 1 attempt sleeps =
      ((match outcome attempt with
        | .ok rows => .ok rows
        | .readTimeout => .error .readTimeout
        | .connError => .error .connError
        | .httpError s => .error (.httpError s)),
       sleeps, attempt + 1) := by
  conv_lhs => rw [fetchPageGo.eq_def]
  cases h : outcome attempt <;> simp only [h]

/-- C1: pagination termination.  With pages of sizes
`[limit, limit, limit, k < limit]` the fetch issues exactly 4 page
requests and returns `3 * limit + k` rows; in general, the loop stops
exactly when a page comes back empty or shorter than `limit`, and
otherwise continues at the next offset. -/
theorem fetch_pagination_four_pages :
    (∀ (limit k fuel : Nat) (p0 p1 p2 p3 : List Nat)
       (source : Nat → Nat → PageOutcome),
       0 < limit → limit ≤ 50000 → 4 ≤ fuel →
       p0.length = limit → p1.length = limit → p2.length = limit →
       p3.length = k → k < limit →
       source 0 0 = .ok p0 → source limit 0 = .ok p1 →
       source (2 * limit) 0 = .ok p2 → source (3 * limit) 0 = .ok p3 →
       fetch_nyc311_data source (limit : Int) fuel =
         .done (p0 ++ p1 ++ p2 ++ p3) 4 [] ∧
       (p0 ++ p1 ++ p2 ++ p3).length = 3 * limit + k) ∧
    (∀ (source : Nat → Nat → PageOutcome)
       (limit fuel offset pageCount : Nat) (acc sleeps ps : List Nat)
       (m : Nat),
       fetch_page (source offset) = (.ok [], ps, m) →
       fetchGo source limit (fuel + 1) offset pageCount acc sleeps =
         .done acc (pageCount + 1) (sleeps ++ ps)) ∧
    (∀ (source : Nat → Nat → PageOutcome)
       (limit fuel offset pageCount : Nat) (acc sleeps ps rows : List Nat)
       (m : Nat),
       fetch_page (source offset) = (.ok rows, ps, m) → rows ≠ [] →
       rows.length < limit →
       fetchGo source limit (fuel + 1) offset pageCount acc sleeps =
         .done (acc ++ rows) (pageCount + 1) (sleeps ++ ps)) ∧
    (∀ (source : Nat → Nat → PageOutcome)
       (limit fuel offset pageCount : Nat) (acc sleeps ps rows : List Nat)
       (m : Nat),
       fetch_page (source offset) = (.ok rows, ps, m) → rows ≠ [] →
       ¬ rows.length < limit →
       fetchGo source limit (fuel + 1) offset pageCount acc sleeps =
         fetchGo source limit fuel (offset + limit) (pageCount + 1)
           (acc ++ rows) (sleeps ++ ps)) := by
  refine ⟨?_, fetchGo_stop_empty, fetchGo_stop_short, fetchGo_continue⟩
  intro limit k fuel p0 p1 p2 p3 source hpos hle hfuel h0 h1 h2 h3 hk
    hs0 hs1 hs2 hs3
  obtain ⟨f, rfl⟩ : ∃ f, fuel = f + 1 + 1 + 1 + 1 :=
    ⟨fuel - 4, by omega⟩
  have hlen : (p0 ++ p1 ++ p2 ++ p3).length = 3 * limit + k := by
    simp [h0, h1, h2, h3]
    ring
  refine ⟨?_, hlen⟩
  have e0 : fetch_page (source 0) = (.ok p0, [], 1) := fetch_page_first_ok hs0
  have e1 : fetch_page (source limit) = (.ok p1, [], 1) :=
    fetch_page_first_ok hs1
  have e2 : fetch_page (source (2 * limit)) = (.ok p2, [], 1) :=
    fetch_page_first_ok hs2
  have e3 : fetch_page (source (3 * limit)) = (.ok p3, [], 1) :=
    fetch_page_first_ok hs3
  have hne0 : p0 ≠ [] := by
    intro hc; rw [hc] at h0; simp at h0; omega
  have hne1 : p1 ≠ [] := by
    intro hc; rw [hc] at h1; simp at h1; omega
  have hne2 : p2 ≠ [] := by
    intro hc; rw [hc] at h2; simp at h2; omega
  have hge0 : ¬ p0.length < limit := by omega
  have hge1 : ¬ p1.length < limit := by omega
  have hge2 : ¬ p2.length < limit := by omega
  rw [fetch_nyc311_data]
  have hcond : ¬ ((limit : Int) ≤ 0 ∨ (limit : Int) > (MAX_LIMIT : Int)) := by
    simp only [MAX_LIMIT]
    push_neg
    constructor <;> [positivity; omega]
  rw [if_neg hcond]
  have htn : (limit : Int).toNat = limit := by simp
  rw [htn]
  rw [fetchGo_continue source limit (f + 1 + 1 + 1) 0 0 [] [] [] p0 1
    e0 hne0 hge0]
  simp only [Nat.zero_add, List.nil_append, List.append_nil]
  rw [fetchGo_continue source limit (f + 1 + 1) limit 1 p0 [] [] p1 1
    e1 hne1 hge1]
  simp only [List.append_nil]
  have hoff2 : limit + limit = 2 * limit := by ring
  rw [hoff2]
  rw [fetchGo_continue source limit (f + 1) (2 * limit) 2 (p0 ++ p1) []
    [] p2 1 e2 hne2 hge2]
  simp only [List.append_nil]
  have hoff3 : 2 * limit + limit = 3 * limit := by ring
  rw [hoff3]
  by_cases hp3 : p3 = []
  · rw [hp3] at e3
    rw [fetchGo_stop_empty source limit f (3 * limit) 3
      (p0 ++ p1 ++ p2) [] [] 1 e3]
    rw [hp3]
    simp [List.append_assoc]
  · have hlt3 : p3.length < limit := by omega
    rw [fetchGo_stop_short source limit f (3 * limit) 3 (p0 ++ p1 ++ p2)
      [] [] p3 1 e3 hp3 hlt3]
    simp [List.append_assoc]

/-- Concrete run of the pagination claim: `limit = 2`, pages of sizes
2, 2, 2, 1 give 4 requests and 7 rows. -/
def srcFour : Nat → Nat → PageOutcome := fun offset _ =>
  if offset = 0 then .ok [10, 11]
  else if offset = 2 then .ok [12, 13]
  else if offset = 4 then .ok [14, 15]
  else if offset = 6 then .ok [16]
  else .ok []

theorem fetch_pagination_four_pages_witness :
    fetch_nyc311_data srcFour 2 4 =
      .done ([10, 11] ++ [12, 13] ++ [14, 15] ++ [16]) 4 [] ∧
    (([10, 11] ++ [12, 13] ++ [14, 15] ++ [16] : List Nat)).length =
      3 * 2 + 1 := by
  exact fetch_pagination_four_pages.1 2 1 4 [10, 11] [12, 13] [14, 15]
    [16] srcFour (by norm_num) (by norm_num) (by norm_num) rfl rfl rfl
    rfl (by norm_num) rfl rfl rfl rfl

/-- C2 (amended): at most `MAX_RETRIES` attempts per page; a retryable
failure sleeps `RETRY_DELAY * 2 ^ attempt` before the next attempt, so
after two retryable failures the caller has observed exactly the delays
2s and 4s; the third attempt's result (success or error) is returned or
raised at once, with no further backoff wait. -/
theorem fetch_page_retry_backoff (outcome : Nat → PageOutcome) :
    (fetch_page outcome).2.2 ≤ MAX_RETRIES ∧
    (retryable (outcome 0) → retryable (outcome 1) →
      (fetch_page outcome).2.1 = [RETRY_DELAY * 2 ^ 0, RETRY_DELAY * 2 ^ 1] ∧
      (∀ rows, outcome 2 = .ok rows →
        fetch_page outcome = (.ok rows, [2, 4], 3)) ∧
      (outcome 2 = .readTimeout →
        fetch_page outcome = (.error .readTimeout, [2, 4], 3)) ∧
      (outcome 2 = .connError →
        fetch_page outcome = (.error .connError, [2, 4], 3))) := by
  constructor
  · have h := fetchPageGo_attempts_le outcome MAX_RETRIES
      (by norm_num [MAX_RETRIES]) 0 []
    simpa [fetch_page] using h
  · intro h0 h1
    have h2 := fetch_page_two_retryable h0 h1
    refine ⟨?_, ?_, ?_, ?_⟩
    · rw [h2, fetchPageGo_last]
      norm_num [RETRY_DELAY]
    · intro rows hr
      rw [h2, fetchPageGo_last, hr]
    · intro hr
      rw [h2, fetchPageGo_last, hr]
    · intro hr
      rw [h2, fetchPageGo_last, hr]

theorem fetch_page_retry_backoff_witness :
    fetch_page (fun n => if n = 0 then .readTimeout
      else if n = 1 then .connError else .ok [7]) =
      (.ok [7], [2, 4], 3) := by
  have h := fetch_page_retry_backoff (fun n => if n = 0 then .readTimeout
    else if n = 1 then .connError else .ok [7])
  exact (h.2 (Or.inl rfl) (Or.inr rfl)).2.1 [7] rfl

/-- C2 counterexample: when every attempt times out, the caller
observes the backoff waits [2, 4] — not [2, 4, 8]: no sleep happens
before the final failure is raised. -/
theorem fetch_page_no_sleep_before_final_raise :
    (fetch_page (fun _ => PageOutcome.readTimeout)).2.1 = [2, 4] ∧
    (fetch_page (fun _ => PageOutcome.readTimeout)).2.1 ≠ [2, 4, 8] := by
  constructor
  · rfl
  · decide

/-- C3: `fetch_nyc311_data` reports an invalid limit exactly when
`limit` lies outside `[1, 50000]`, and then the result does not depend
on the source — no request is made. -/
theorem fetch_limit_validation :
    ∀ (source : Nat → Nat → PageOutcome) (limit : Int) (fuel : Nat),
      (fetch_nyc311_data source limit fuel = .invalidLimit ↔
        limit < 1 ∨ limit > 50000) ∧
      (limit < 1 ∨ limit > 50000 →
        ∀ source' : Nat → Nat → PageOutcome,
          fetch_nyc311_data source limit fuel =
            fetch_nyc311_data source' limit fuel) := by
  intro source limit fuel
  have hmax : ((MAX_LIMIT : Nat) : Int) = 50000 := by norm_num [MAX_LIMIT]
  constructor
  · constructor
    · intro h
      by_contra hc
      push_neg at hc
      rw [fetch_nyc311_data, hmax, if_neg (by omega)] at h
      exact fetchGo_ne_invalidLimit source limit.toNat fuel 0 0 [] [] h
    · intro h
      rw [fetch_nyc311_data, hmax, if_pos (by omega)]
  · intro h source'
    rw [fetch_nyc311_data, hmax, if_pos (by omega),
      fetch_nyc311_data, hmax, if_pos (by omega)]

theorem fetch_limit_validation_witness :
    fetch_nyc311_data (fun _ _ => .ok []) 0 1 = .invalidLimit ∧
    fetch_nyc311_data (fun _ _ => .ok []) 0 1 =
      fetch_nyc311_data (fun _ _ => .ok [5]) 0 1 := by
  have h := fetch_limit_validation (fun _ _ => .ok []) 0 1
  exact ⟨h.1.mpr (Or.inl (by norm_num)),
    h.2 (Or.inl (by norm_num)) (fun _ _ => .ok [5])⟩

/-- C10: an HTTP error status raised by `raise_for_status` is not a
read timeout or connection error, so the application-level retry does
not catch it: it propagates at once (no backoff wait, a single
attempt) and aborts the whole fetch. -/
theorem http_error_propagates :
    ∀ (outcome : Nat → PageOutcome) (s : Nat),
      (outcome 0 = .httpError s →
        fetch_page outcome = (.error (.httpError s), [], 1)) ∧
      ∀ (source : Nat → Nat → PageOutcome) (limit : Int) (fuel : Nat),
        1 ≤ limit → limit ≤ 50000 → source 0 0 = .httpError s →
        fetch_nyc311_data source limit (fuel + 1) =
          .pageError (.httpError s) 1 [] := by
  intro outcome s
  have hpage : ∀ g : Nat → PageOutcome, g 0 = .httpError s →
      fetch_page g = (.error (.httpError s), [], 1) := by
    intro g hg
    rw [fetch_page, MAX_RETRIES]
    conv_lhs => rw [fetchPageGo.eq_def]
    simp only [hg]
  refine ⟨hpage outcome, ?_⟩
  intro source limit fuel h1 h2 hs
  have hmax : ((MAX_LIMIT : Nat) : Int) = 50000 := by norm_num [MAX_LIMIT]
  rw [fetch_nyc311_data, hmax, if_neg (by omega)]
  rw [fetchGo, hpage (source 0) hs]
  simp

theorem http_error_propagates_witness :
    fetch_page (fun _ => .httpError 404) =
      (.error (.httpError 404), [], 1) ∧
    fetch_nyc311_data (fun _ _ => .httpError 404) 25000 1 =
      .pageError (.httpError 404) 1 [] := by
  have h := http_error_propagates (fun _ => PageOutcome.httpError 404) 404
  exact ⟨h.1 rfl, h.2 (fun _ _ => PageOutcome.httpError 404) 25000 0
    (by norm_num) (by norm_num) rfl⟩

/-! ### Data model for `nyc311_cleaning.py`

A raw row as fetched (all values strings or null) and a typed row after
stage 1/2 (dates parsed to timestamps in seconds, response time in
fractional days as an exact rational).  A `Table` is an ordered list of
rows plus a flag for whether the `response_time_days` column exists
(pandas checks `"response_time_days" in df.columns`). -/

structure RawRow where
  unique_key : String
  created_date : Option String
  closed_date : Option String
  complaint_type : String
  borough : Option String
  open_data_channel_type : Option String
deriving DecidableEq, Repr

structure Row where
  unique_key : String
  created_date : Option Int
  closed_date : Option Int
  complaint_type : String
  borough : Option String
  open_data_channel_type : Option String
  response_time_days : Option Rat
deriving DecidableEq, Repr

structure Table where
  rows : List Row
  hasResponseCol : Bool
deriving DecidableEq, Repr

/-- Stage 1, `convert_dates_to_datetime`: `pd.to_datetime` with
`errors="coerce"` — nulls stay null, unparseable strings become null.
The date parser itself is a parameter (a library routine). -/
def convert_dates_to_datetime (parse : String → Option Int)
    (df : List RawRow) : Table :=
  { rows := df.map fun r =>
      { unique_key := r.unique_key
        created_date := r.created_date.bind parse
        closed_date := r.closed_date.bind parse
        complaint_type := r.complaint_type
        borough := r.borough
        open_data_channel_type := r.open_data_channel_type
        response_time_days := none }
    hasResponseCol := false }

/-- Stage 2, `compute_response_time`:
`(closed_date - created_date).dt.total_seconds() / (24 * 3600)`;
null if either date is null. -/
def compute_response_time (df : Table) : Table :=
  { rows := df.rows.map fun r =>
      { r with response_time_days :=
          match r.closed_date, r.created_date with
          | some c, some cr => some (((c - cr : Int) : Rat) / (24 * 3600))
          | _, _ => none }
    hasResponseCol := true }

/-- Stage 3, `filter_invalid_rows`: each toggle keeps rows whose field
is non-null; then, when the `response_time_days` column exists,
`df[df["response_time_days"] > 0]` keeps exactly the rows whose value
compares greater than 0 — for a null value (`NaN`) the comparison is
false, so such rows are removed too. -/
def filter_invalid_rows (df : Table)
    (require_created_date : Bool := true)
    (require_closed_date : Bool := true)
    (require_borough : Bool := true) : Table :=
  let rows0 := df.rows
  let rows1 := if require_created_date then
      rows0.filter (fun r => r.created_date.isSome) else rows0
  let rows2 := if require_closed_date then
      rows1.filter (fun r => r.closed_date.isSome) else rows1
  let rows3 := if require_borough then
      rows2.filter (fun r => r.borough.isSome) else rows2
  let rows4 := if df.hasResponseCol then
      rows3.filter (fun r =>
        match r.response_time_days with
        | some v => decide (0 < v)
        | none => false)
    else rows3
  { df with rows := rows4 }

/-- The fixed `channel_mapping` dictionary of
`standardize_channel_type`. -/
def channel_mapping (s : String) : Option String :=
  if s = "PHONE" then some "Phone"
  else if s = "ONLINE" then some "Web"
  else if s = "UNKNOWN" then some "Web"
  else if s = "MOBILE" then some "App"
  else if s = "OTHER" then some "Web"
  else none

/-- Stage 4, `standardize_channel_type`: `.str.upper().str.strip()`
(null stays null), then `.map(channel_mapping).fillna("Web")`. -/
def standardize_channel_type (df : Table) : Table :=
  { df with rows := df.rows.map fun r =>
      { r with open_data_channel_type :=
          (some ((((r.open_data_channel_type.map fun s =>
            s.toUpper.trim)).bind channel_mapping).getD "Web")) } }

/-- `df.drop_duplicates(subset=[key_column], keep="first")`: keep a row
when its key has not been seen before. -/
def dedupGo : List Row → List String → List Row
  | [], _ => []
  | r :: rs, seen =>
    if r.unique_key ∈ seen then dedupGo rs seen
    else r :: dedupGo rs (r.unique_key :: seen)

/-- Stage 5, `remove_duplicates` on `unique_key`. -/
def remove_duplicates (df : Table) : Table :=
  { df with rows := dedupGo df.rows [] }

/-- `Series.quantile(q)` with linear interpolation over the sorted
non-null values; `none` when there are no values (pandas returns
`NaN`). -/
def percentileThreshold (vals : List Rat) (q : Rat) : Option Rat :=
  let s := vals.insertionSort (· ≤ ·)
  if s.length = 0 then none
  else
    let idx : Rat := q * ((s.length - 1 : Nat) : Rat)
    let lo : Nat := idx.floor.toNat
    let hi : Nat := min (lo + 1) (s.length - 1)
    let frac : Rat := idx - (lo : Rat)
    some (s.getD lo 0 + frac * (s.getD hi 0 - s.getD lo 0))

/-- Stage 6, `winsorize_response_time`: skip when the column is
missing; otherwise clip every value above the threshold down to the
threshold (`clip(upper=threshold)`).  A null threshold (no non-null
values) leaves the data unchanged. -/
def winsorize_response_time (df : Table) (percentile : Rat := 99) :
    Table :=
  if df.hasResponseCol = false then df
  else
    match percentileThreshold (df.rows.filterMap Row.response_time_days)
        (percentile / 100) with
    | none => df
    | some threshold =>
      { df with rows := df.rows.map fun r =>
          { r with response_time_days :=
              r.response_time_days.map fun v => min v threshold } }

/-- Distinct values in order of first appearance. -/
def firstOccurrences : List String → List String → List String
  | [], _ => []
  | x :: xs, seen =>
    if x ∈ seen then firstOccurrences xs seen
    else x :: firstOccurrences xs (x :: seen)

/-- `df["complaint_type"].value_counts()`: frequency of each distinct
complaint type, sorted by count descending (stable on ties). -/
def value_counts (rows : List Row) : List (String × Nat) :=
  let types := firstOccurrences (rows.map Row.complaint_type) []
  (types.map fun ty =>
    (ty, rows.countP fun r => r.complaint_type == ty)).insertionSort
    (fun a b => b.2 ≤ a.2)

/-- Stage 7, `select_top_complaint_types`: if `min_count` is given keep
every type with at least that many records (it takes precedence);
otherwise keep the `n_top` most frequent types (`head(None)` keeps
all); then filter rows to the kept types (`isin`). -/
def select_top_complaint_types (df : Table)
    (n_top : Option Nat := some 10) (min_count : Option Nat := none) :
    Table :=
  let complaint_counts := value_counts df.rows
  let top_types :=
    match min_count with
    | some m => ((complaint_counts.filter
        (fun p : String × Nat => decide (m ≤ p.2))).map Prod.fst)
    | none =>
      match n_top with
      | some n => (complaint_counts.take n).map Prod.fst
      | none => complaint_counts.map Prod.fst
  { df with rows := df.rows.filter fun r =>
      top_types.contains r.complaint_type }

/-- The driver `clean_nyc311_data`: stages 1–6 in order, then stage 7
only when a top-N count or a minimum count is supplied. -/
def clean_nyc311_data (parse : String → Option Int) (df : List RawRow)
    (winsorize_percentile : Rat := 99)
    (top_complaint_types : Option Nat := none)
    (min_complaint_count : Option Nat := none) : Table :=
  let df1 := convert_dates_to_datetime parse df
  let df2 := compute_response_time df1
  let df3 := filter_invalid_rows df2 true true true
  let df4 := standardize_channel_type df3
  let df5 := remove_duplicates df4
  let df6 := winsorize_response_time df5 winsorize_percentile
  if top_complaint_types.isSome || min_complaint_count.isSome then
    select_top_complaint_types df6 top_complaint_types
      min_complaint_count
  else df6

/-! ### Cleaning-stage helper lemmas -/

/-- A conditionally applied filter yields a sublist. -/
theorem if_filter_sublist (b : Bool) (p : Row → Bool) (l : List Row) :
    List.Sublist (if b then l.filter p else l) l := by
  cases b
  · simp
  · simp only [if_true]
    exact List.filter_sublist l

/-- The positive-response-time test of stage 3, as a proposition. -/
theorem response_pos_iff (r : Row) :
    ((match r.response_time_days with
      | some v => decide (0 < v)
      | none => false) = true) ↔
      ∃ v, r.response_time_days = some v ∧ 0 < v := by
  cases h : r.response_time_days <;> simp [h]

/-- C4 counterexample input: a row with null `closed_date`, hence null
`response_time_days`, but non-null `created_date` and `borough`. -/
def rowNullResponse : Row :=
  { unique_key := "1", created_date := some 0, closed_date := none,
    complaint_type := "Noise", borough := some "QUEENS",
    open_data_channel_type := some "PHONE", response_time_days := none }

/-- C4 counterexample: with `require_closed_date` off, the claim says a
null `response_time_days` row survives the response-time condition; the
code removes it (`NaN > 0` is false in pandas). -/
theorem filter_null_response_removed :
    (filter_invalid_rows { rows := [rowNullResponse], hasResponseCol := true }
      true false true).rows = [] ∧
    rowNullResponse.response_time_days = none ∧
    rowNullResponse.created_date.isSome = true ∧
    rowNullResponse.borough.isSome = true := by
  refine ⟨?_, rfl, rfl, rfl⟩
  rfl

/-- C4 (amended): stage 3 keeps exactly the rows that satisfy every
active toggle requirement and — whenever the `response_time_days`
column exists — have a response time that is present and positive:
a null response time is removed too. -/
theorem filter_invalid_rows_spec :
    ∀ (df : Table) (rc rcl rb : Bool),
      (∀ r, r ∈ (filter_invalid_rows df rc rcl rb).rows ↔
        (r ∈ df.rows ∧
         (rc = true → r.created_date.isSome) ∧
         (rcl = true → r.closed_date.isSome) ∧
         (rb = true → r.borough.isSome) ∧
         (df.hasResponseCol = true →
           ∃ v, r.response_time_days = some v ∧ 0 < v))) ∧
      List.Sublist (filter_invalid_rows df rc rcl rb).rows df.rows ∧
      (filter_invalid_rows df rc rcl rb).hasResponseCol =
        df.hasResponseCol := by
  intro df rc rcl rb
  rcases df with ⟨rows, hc⟩
  refine ⟨?_, ?_, rfl⟩
  · intro r
    cases rc <;> cases rcl <;> cases rb <;> cases hc <;>
      (try simp [filter_invalid_rows, List.mem_filter,
        response_pos_iff]) <;> tauto
  · simp only [filter_invalid_rows]
    exact (if_filter_sublist _ _ _).trans
      ((if_filter_sublist _ _ _).trans
        ((if_filter_sublist _ _ _).trans (if_filter_sublist _ _ _)))

theorem filter_invalid_rows_spec_witness :
    rowNullResponse ∈
      ({ rows := [rowNullResponse], hasResponseCol := false } : Table).rows ∧
    rowNullResponse ∈ (filter_invalid_rows
      { rows := [rowNullResponse], hasResponseCol := false }
      true false true).rows := by
  have h := (filter_invalid_rows_spec
    { rows := [rowNullResponse], hasResponseCol := false }
    true false true).1 rowNullResponse
  refine ⟨by simp, h.mpr ⟨by simp, fun _ => rfl, by simp, fun _ => rfl,
    by simp⟩⟩

/-- Normalization of one channel value: uppercase+trim then look up,
falling back to `"Web"`. -/
theorem channel_value_eq (o : Option String) :
    (((o.map fun s => s.toUpper.trim).bind channel_mapping).getD "Web") =
      (match o.map (fun s : String => s.toUpper.trim) with
       | none => "Web"
       | some u =>
         if u = "PHONE" then "Phone"
         else if u = "ONLINE" then "Web"
         else if u = "UNKNOWN" then "Web"
         else if u = "MOBILE" then "App"
         else if u = "OTHER" then "Web"
         else "Web") := by
  cases o with
  | none => rfl
  | some s =>
    show (channel_mapping (s.toUpper.trim)).getD "Web" =
      (if s.toUpper.trim = "PHONE" then "Phone"
       else if s.toUpper.trim = "ONLINE" then "Web"
       else if s.toUpper.trim = "UNKNOWN" then "Web"
       else if s.toUpper.trim = "MOBILE" then "App"
       else if s.toUpper.trim = "OTHER" then "Web"
       else "Web")
    rw [channel_mapping]
    split_ifs <;> rfl

/-- Every looked-up channel value is `Phone`, `Web` or `App`. -/
theorem channel_mapping_total (u : String) :
    (channel_mapping u).getD "Web" = "Phone" ∨
    (channel_mapping u).getD "Web" = "Web" ∨
    (channel_mapping u).getD "Web" = "App" := by
  rw [channel_mapping]
  split_ifs <;> simp

/-- C5: stage 4 maps every row's channel (any string, any case or
whitespace, or null) to one of `Phone`, `Web`, `App`: the uppercased,
trimmed form is looked up in the fixed dictionary and anything else —
null included — defaults to `Web`. -/
theorem standardize_channel_type_total :
    ∀ df : Table,
      (∀ r ∈ (standardize_channel_type df).rows,
        r.open_data_channel_type = some "Phone" ∨
        r.open_data_channel_type = some "Web" ∨
        r.open_data_channel_type = some "App") ∧
      ((standardize_channel_type df).rows = df.rows.map fun r =>
        { r with open_data_channel_type :=
            (some (match r.open_data_channel_type.map
                (fun s : String => s.toUpper.trim) with
              | none => "Web"
              | some u =>
                if u = "PHONE" then "Phone"
                else if u = "ONLINE" then "Web"
                else if u = "UNKNOWN" then "Web"
                else if u = "MOBILE" then "App"
                else if u = "OTHER" then "Web"
                else "Web")) }) := by
  intro df
  constructor
  · intro r hr
    simp only [standardize_channel_type, List.mem_map] at hr
    obtain ⟨r₀, _, rfl⟩ := hr
    simp only
    cases h : r₀.open_data_channel_type with
    | none => right; left; rfl
    | some s =>
      rcases channel_mapping_total (s.toUpper.trim) with h1 | h1 | h1 <;>
        simp [h, h1]
  · simp only [standardize_channel_type]
    have hf : (fun r : Row =>
        { r with open_data_channel_type :=
            (some ((((r.open_data_channel_type.map fun s =>
              s.toUpper.trim)).bind channel_mapping).getD "Web")) }) =
        (fun r : Row =>
        { r with open_data_channel_type :=
            (some (match r.open_data_channel_type.map
                (fun s : String => s.toUpper.trim) with
              | none => "Web"
              | some u =>
                if u = "PHONE" then "Phone"
                else if u = "ONLINE" then "Web"
                else if u = "UNKNOWN" then "Web"
                else if u = "MOBILE" then "App"
                else if u = "OTHER" then "Web"
                else "Web")) }) := by
      funext r
      rw [channel_value_eq]
    rw [hf]

/-- C5 witness input: a row with a null channel value. -/
def rowNullChannel : Row :=
  { unique_key := "9", created_date := none, closed_date := none,
    complaint_type := "X", borough := none,
    open_data_channel_type := none, response_time_days := none }

theorem standardize_channel_type_total_witness :
    ({ rowNullChannel with open_data_channel_type := some "Web" } :
        Row).open_data_channel_type = some "Phone" ∨
    ({ rowNullChannel with open_data_channel_type := some "Web" } :
        Row).open_data_channel_type = some "Web" ∨
    ({ rowNullChannel with open_data_channel_type := some "Web" } :
        Row).open_data_channel_type = some "App" := by
  have h := (standardize_channel_type_total
    { rows := [rowNullChannel], hasResponseCol := false }).1
  exact h _ (by simp [standardize_channel_type, rowNullChannel])

/-! ### Deduplication lemmas -/

/-- Deduplication only removes rows, in place. -/
theorem dedupGo_sublist :
    ∀ (l : List Row) (seen : List String),
      List.Sublist (dedupGo l seen) l := by
  intro l
  induction l with
  | nil => intro seen; simp [dedupGo]
  | cons x xs ih =>
    intro seen
    rw [dedupGo]
    by_cases h : x.unique_key ∈ seen
    · rw [if_pos h]
      exact List.Sublist.cons x (ih seen)
    · rw [if_neg h]
      exact List.Sublist.cons₂ x (ih _)

/-- A kept row's key was not among the already-seen keys. -/
theorem dedupGo_key_not_seen :
    ∀ (l : List Row) (seen : List String) (r : Row),
      r ∈ dedupGo l seen → r.unique_key ∉ seen := by
  intro l
  induction l with
  | nil => intro seen r h; simp [dedupGo] at h
  | cons x xs ih =>
    intro seen r h
    rw [dedupGo] at h
    by_cases hx : x.unique_key ∈ seen
    · rw [if_pos hx] at h
      exact ih seen r h
    · rw [if_neg hx] at h
      rcases List.mem_cons.mp h with rfl | h2
      · exact hx
      · have h3 := ih _ r h2
        intro hc
        exact h3 (List.mem_cons_of_mem _ hc)

/-- After deduplication the keys are pairwise distinct. -/
theorem dedupGo_nodup :
    ∀ (l : List Row) (seen : List String),
      ((dedupGo l seen).map Row.unique_key).Nodup := by
  intro l
  induction l with
  | nil => intro seen; simp [dedupGo]
  | cons x xs ih =>
    intro seen
    rw [dedupGo]
    by_cases hx : x.unique_key ∈ seen
    · rw [if_pos hx]
      exact ih seen
    · rw [if_neg hx]
      simp only [List.map_cons, List.nodup_cons]
      refine ⟨?_, ih _⟩
      intro hc
      rcases List.mem_map.mp hc with ⟨r, hr, hk⟩
      have h3 := dedupGo_key_not_seen xs _ r hr
      exact h3 (by rw [hk]; exact List.mem_cons_self _ _)

/-- Every kept row is the first row of the input with its key. -/
theorem dedupGo_find_first :
    ∀ (l : List Row) (seen : List String) (r : Row),
      r ∈ dedupGo l seen →
      l.find? (fun x => x.unique_key == r.unique_key) = some r := by
  intro l
  induction l with
  | nil => intro seen r h; simp [dedupGo] at h
  | cons x xs ih =>
    intro seen r h
    rw [dedupGo] at h
    by_cases hx : x.unique_key ∈ seen
    · rw [if_pos hx] at h
      have hr := ih seen r h
      have hnot := dedupGo_key_not_seen xs seen r h
      have hne : ¬ ((fun y : Row => y.unique_key == r.unique_key) x
          = true) := by
        simp only [beq_iff_eq]
        intro hc
        exact hnot (hc ▸ hx)
      rw [@List.find?_cons_of_neg Row
        (fun y : Row => y.unique_key == r.unique_key) x xs hne]
      exact hr
    · rw [if_neg hx] at h
      rcases List.mem_cons.mp h with rfl | h2
      · rw [List.find?_cons_of_pos _ (by simp)]
      · have hr := ih _ r h2
        have hnot := dedupGo_key_not_seen xs _ r h2
        have hne : ¬ ((fun y : Row => y.unique_key == r.unique_key) x
            = true) := by
          simp only [beq_iff_eq]
          intro hc
          exact hnot (by rw [← hc]; exact List.mem_cons_self _ _)
        rw [@List.find?_cons_of_neg Row
          (fun y : Row => y.unique_key == r.unique_key) x xs hne]
        exact hr

/-- Deduplicating already-deduplicated rows changes nothing. -/
theorem dedupGo_idem :
    ∀ (l : List Row) (seen : List String),
      dedupGo (dedupGo l seen) seen = dedupGo l seen := by
  intro l
  induction l with
  | nil => intro seen; simp [dedupGo]
  | cons x xs ih =>
    intro seen
    rw [dedupGo]
    by_cases hx : x.unique_key ∈ seen
    · rw [if_pos hx]
      exact ih seen
    · rw [if_neg hx]
      rw [dedupGo, if_neg hx]
      congr 1
      exact ih (x.unique_key :: seen)

/-- C6: stage 5 is idempotent; after it each `unique_key` occurs at
most once, and the row kept for a key is the first occurrence in input
order. -/
theorem remove_duplicates_idempotent :
    ∀ df : Table,
      remove_duplicates (remove_duplicates df) = remove_duplicates df ∧
      ((remove_duplicates df).rows.map Row.unique_key).Nodup ∧
      (∀ r ∈ (remove_duplicates df).rows,
        df.rows.find? (fun x => x.unique_key == r.unique_key) =
          some r) := by
  intro df
  rcases df with ⟨rows, hc⟩
  refine ⟨?_, dedupGo_nodup rows [],
    fun r hr => dedupGo_find_first rows [] r hr⟩
  simp only [remove_duplicates]
  rw [dedupGo_idem]

/-- Two rows sharing a `unique_key`. -/
def dupA : Row :=
  { unique_key := "k", created_date := none, closed_date := none,
    complaint_type := "A", borough := none,
    open_data_channel_type := none, response_time_days := none }

def dupB : Row := { dupA with complaint_type := "B" }

theorem remove_duplicates_idempotent_witness :
    ({ rows := [dupA, dupB], hasResponseCol := false } :
      Table).rows.find? (fun x => x.unique_key == dupA.unique_key) =
      some dupA := by
  have h := (remove_duplicates_idempotent
    { rows := [dupA, dupB], hasResponseCol := false }).2.2
  exact h dupA (by decide)

/-! ### Winsorization -/

/-- C7: after stage 6 every present `response_time_days` value is at
most the threshold — the given percentile of the pre-stage-6
distribution — and values already at or below the threshold are
unchanged. -/
theorem winsorize_caps_at_threshold :
    ∀ (df : Table) (p th : Rat),
      df.hasResponseCol = true →
      percentileThreshold (df.rows.filterMap Row.response_time_days)
        (p / 100) = some th →
      ((winsorize_response_time df p).rows = df.rows.map fun r =>
        { r with response_time_days :=
            r.response_time_days.map fun v => min v th }) ∧
      (∀ v ∈ (winsorize_response_time df p).rows.filterMap
          Row.response_time_days, v ≤ th) ∧
      (∀ r ∈ df.rows, ∀ v, r.response_time_days = some v → v ≤ th →
        ({ r with response_time_days :=
            r.response_time_days.map fun v => min v th } :
          Row).response_time_days = some v) := by
  intro df p th hrc hth
  have heq : (winsorize_response_time df p).rows = df.rows.map fun r =>
      { r with response_time_days :=
          r.response_time_days.map fun v => min v th } := by
    simp [winsorize_response_time, hrc, hth]
  refine ⟨heq, ?_, ?_⟩
  · intro v hv
    rw [heq, List.filterMap_map] at hv
    rcases List.mem_filterMap.mp hv with ⟨r, _, hfr⟩
    simp only [Function.comp] at hfr
    cases ho : r.response_time_days with
    | none => rw [ho] at hfr; simp at hfr
    | some w =>
      rw [ho] at hfr
      simp at hfr
      rw [← hfr]
      exact min_le_right w th
  · intro r _ v hv hle
    simp [hv, min_eq_left hle]

/-- C7 witness data: response times 1 and 10 days; the 99th percentile
with linear interpolation is 9.91. -/
def rowResp (k : String) (v : Rat) : Row :=
  { unique_key := k, created_date := some 0, closed_date := some 0,
    complaint_type := "T", borough := some "BRONX",
    open_data_channel_type := some "PHONE",
    response_time_days := some v }

def winsTable : Table :=
  { rows := [rowResp "a" 1, rowResp "b" 10], hasResponseCol := true }

theorem winsorize_caps_at_threshold_witness :
    ((winsorize_response_time winsTable 99).rows =
      winsTable.rows.map fun r =>
        { r with response_time_days :=
            r.response_time_days.map fun v => min v (991 / 100 : Rat) }) ∧
    (991 / 100 : Rat) ≤ 991 / 100 := by
  have hf : ((99 / 100 : Rat)).floor = 0 := by
    rw [Rat.floor_def']
    norm_num
  have hth : percentileThreshold
      (winsTable.rows.filterMap Row.response_time_days)
      ((99 : Rat) / 100) = some (991 / 100) := by
    norm_num [percentileThreshold, winsTable, rowResp,
      List.insertionSort, List.orderedInsert, hf]
  have h := winsorize_caps_at_threshold winsTable 99 (991 / 100) rfl hth
  refine ⟨h.1, h.2.1 (991 / 100) ?_⟩
  rw [h.1]
  simp [winsTable, rowResp]
  norm_num [min_def]

/-! ### Top-complaint-type selection -/

/-- Membership in the first-occurrence list. -/
theorem firstOccurrences_mem :
    ∀ (l seen : List String) (x : String),
      x ∈ firstOccurrences l seen ↔ (x ∈ l ∧ x ∉ seen) := by
  intro l
  induction l with
  | nil => intro seen x; simp [firstOccurrences]
  | cons y ys ih =>
    intro seen x
    rw [firstOccurrences]
    by_cases hy : y ∈ seen
    · rw [if_pos hy, ih]
      constructor
      · rintro ⟨hx, hns⟩
        exact ⟨List.mem_cons_of_mem _ hx, hns⟩
      · rintro ⟨hx, hns⟩
        rcases List.mem_cons.mp hx with rfl | hx2
        · exact absurd hy hns
        · exact ⟨hx2, hns⟩
    · rw [if_neg hy]
      constructor
      · intro hx
        rcases List.mem_cons.mp hx with rfl | hx2
        · exact ⟨List.mem_cons_self _ _, hy⟩
        · rw [ih] at hx2
          exact ⟨List.mem_cons_of_mem _ hx2.1,
            fun hc => hx2.2 (List.mem_cons_of_mem _ hc)⟩
      · rintro ⟨hx, hns⟩
        rcases List.mem_cons.mp hx with rfl | hx2
        · exact List.mem_cons_self _ _
        · by_cases hxy : x = y
          · subst hxy
            exact List.mem_cons_self _ _
          · refine List.mem_cons_of_mem _ ?_
            rw [ih]
            refine ⟨hx2, fun hc => ?_⟩
            rcases List.mem_cons.mp hc with h | h
            · exact hxy h
            · exact hns h

/-- `value_counts` is a permutation of the unsorted count list, so
membership is unchanged by the sort. -/
theorem value_counts_mem (rows : List Row) (p : String × Nat) :
    p ∈ value_counts rows ↔
      p ∈ (firstOccurrences (rows.map Row.complaint_type) []).map
        (fun ty => (ty, rows.countP fun r => r.complaint_type == ty)) :=
  (List.perm_insertionSort _ _).mem_iff

/-- Every count pair records the frequency of its type. -/
theorem value_counts_snd (rows : List Row) (p : String × Nat)
    (hp : p ∈ value_counts rows) :
    p.2 = rows.countP (fun r => r.complaint_type == p.1) := by
  rw [value_counts_mem] at hp
  rcases List.mem_map.mp hp with ⟨ty, _, rfl⟩
  rfl

/-- The count pair of any present complaint type is in
`value_counts`. -/
theorem value_counts_pair_mem (rows : List Row) (r : Row)
    (hr : r ∈ rows) :
    (r.complaint_type,
      rows.countP fun x => x.complaint_type == r.complaint_type) ∈
      value_counts rows := by
  rw [value_counts_mem]
  refine List.mem_map_of_mem _ ?_
  rw [firstOccurrences_mem]
  exact ⟨List.mem_map_of_mem _ hr, by simp⟩

/-- C8: with a minimum count, stage 7 keeps exactly the rows whose
complaint type occurs at least that often (regardless of the top-N
argument — min-count takes precedence); with top-N only and the example
counts {A:50, B:30, C:10, D:5}, `top_n = 2` keeps exactly the A and B
rows; with neither supplied, the driver skips stage 7 entirely. -/
theorem select_top_complaint_types_spec :
    (∀ (df : Table) (nt : Option Nat) (m : Nat) (r : Row),
      r ∈ (select_top_complaint_types df nt (some m)).rows ↔
        r ∈ df.rows ∧
          m ≤ df.rows.countP
            (fun x => x.complaint_type == r.complaint_type)) ∧
    (∀ df : Table,
      value_counts df.rows = [("A", 50), ("B", 30), ("C", 10), ("D", 5)] →
      (select_top_complaint_types df (some 2) none).rows =
        df.rows.filter
          (fun r => r.complaint_type == "A" || r.complaint_type == "B")) ∧
    (∀ (parse : String → Option Int) (df : List RawRow) (p : Rat),
      clean_nyc311_data parse df p none none =
        winsorize_response_time (remove_duplicates
          (standardize_channel_type (filter_invalid_rows
            (compute_response_time (convert_dates_to_datetime parse df))
            true true true))) p) := by
  refine ⟨?_, ?_, fun parse df p => rfl⟩
  · intro df nt m r
    simp only [select_top_complaint_types, List.mem_filter]
    constructor
    · rintro ⟨hmem, hcont⟩
      refine ⟨hmem, ?_⟩
      have hc : r.complaint_type ∈ ((value_counts df.rows).filter
          (fun p : String × Nat => decide (m ≤ p.2))).map Prod.fst := by
        simpa using hcont
      rcases List.mem_map.mp hc with ⟨p, hpf, hfst⟩
      rcases (List.mem_filter.mp hpf) with ⟨hp, hdec⟩
      have hsnd := value_counts_snd df.rows p hp
      simp only [decide_eq_true_eq] at hdec
      rw [hsnd, hfst] at hdec
      exact hdec
    · rintro ⟨hmem, hcnt⟩
      refine ⟨hmem, ?_⟩
      have hpair0 : (r.complaint_type, df.rows.countP fun x =>
          x.complaint_type == r.complaint_type) ∈
          (value_counts df.rows).filter
            (fun p : String × Nat => decide (m ≤ p.2)) := by
        rw [List.mem_filter]
        exact ⟨value_counts_pair_mem df.rows r hmem, by simpa using hcnt⟩
      have hpair : r.complaint_type ∈ ((value_counts df.rows).filter
          (fun p : String × Nat => decide (m ≤ p.2))).map Prod.fst :=
        List.mem_map.mpr ⟨_, hpair0, rfl⟩
      simpa using hpair
  · intro df h
    simp only [select_top_complaint_types, h]
    refine List.filter_congr ?_
    intro x _
    by_cases h1 : x.complaint_type = "A" <;>
      by_cases h2 : x.complaint_type = "B" <;>
      simp [h1, h2, List.contains]

/-- C8 witness data: 50 A rows, 30 B rows, 10 C rows, 5 D rows. -/
def rowOfType (ty : String) : Row :=
  { unique_key := ty, created_date := none, closed_date := none,
    complaint_type := ty, borough := none,
    open_data_channel_type := none, response_time_days := none }

def topTable : Table :=
  { rows := List.replicate 50 (rowOfType "A") ++
      List.replicate 30 (rowOfType "B") ++
      List.replicate 10 (rowOfType "C") ++
      List.replicate 5 (rowOfType "D"),
    hasResponseCol := false }

theorem select_top_complaint_types_spec_witness :
    ((select_top_complaint_types topTable (some 2) none).rows =
      topTable.rows.filter
        (fun r => r.complaint_type == "A" || r.complaint_type == "B")) ∧
    (rowOfType "A" ∈
        (select_top_complaint_types topTable none (some 40)).rows ↔
      rowOfType "A" ∈ topTable.rows ∧
        40 ≤ topTable.rows.countP (fun x =>
          x.complaint_type == (rowOfType "A").complaint_type)) := by
  have h := select_top_complaint_types_spec
  exact ⟨h.2.1 topTable (by decide),
    h.1 topTable none 40 (rowOfType "A")⟩

/-! ### Row-order preservation -/

theorem convert_keys (parse : String → Option Int) (df : List RawRow) :
    (convert_dates_to_datetime parse df).rows.map Row.unique_key =
      df.map RawRow.unique_key := by
  simp [convert_dates_to_datetime, List.map_map, Function.comp]

theorem compute_keys (df : Table) :
    (compute_response_time df).rows.map Row.unique_key =
      df.rows.map Row.unique_key := by
  simp [compute_response_time, List.map_map, Function.comp]

theorem standardize_keys (df : Table) :
    (standardize_channel_type df).rows.map Row.unique_key =
      df.rows.map Row.unique_key := by
  simp [standardize_channel_type, List.map_map, Function.comp]

theorem filter_invalid_rows_sublist (df : Table) (rc rcl rb : Bool) :
    List.Sublist (filter_invalid_rows df rc rcl rb).rows df.rows := by
  simp only [filter_invalid_rows]
  exact (if_filter_sublist _ _ _).trans
    ((if_filter_sublist _ _ _).trans
      ((if_filter_sublist _ _ _).trans (if_filter_sublist _ _ _)))

theorem winsorize_keys (df : Table) (p : Rat) :
    (winsorize_response_time df p).rows.map Row.unique_key =
      df.rows.map Row.unique_key := by
  rw [winsorize_response_time]
  by_cases h : df.hasResponseCol = false
  · rw [if_pos h]
  · rw [if_neg h]
    cases hth : percentileThreshold
        (df.rows.filterMap Row.response_time_days) (p / 100) with
    | none => rfl
    | some th => simp [List.map_map, Function.comp]

theorem select_sublist (df : Table) (nt mc : Option Nat) :
    List.Sublist (select_top_complaint_types df nt mc).rows df.rows := by
  simp only [select_top_complaint_types]
  exact List.filter_sublist _

/-- C9: every cleaning stage either rewrites values in place (the key
sequence is unchanged) or filters rows (the key sequence is a
subsequence); no stage — and hence not the driver either — ever
reorders surviving rows. -/
theorem cleaning_preserves_row_order :
    (∀ (parse : String → Option Int) (df : List RawRow),
      (convert_dates_to_datetime parse df).rows.map Row.unique_key =
        df.map RawRow.unique_key) ∧
    (∀ df : Table, (compute_response_time df).rows.map Row.unique_key =
      df.rows.map Row.unique_key) ∧
    (∀ (df : Table) (rc rcl rb : Bool),
      List.Sublist
        ((filter_invalid_rows df rc rcl rb).rows.map Row.unique_key)
        (df.rows.map Row.unique_key)) ∧
    (∀ df : Table,
      (standardize_channel_type df).rows.map Row.unique_key =
        df.rows.map Row.unique_key) ∧
    (∀ df : Table,
      List.Sublist ((remove_duplicates df).rows.map Row.unique_key)
        (df.rows.map Row.unique_key)) ∧
    (∀ (df : Table) (p : Rat),
      (winsorize_response_time df p).rows.map Row.unique_key =
        df.rows.map Row.unique_key) ∧
    (∀ (df : Table) (nt mc : Option Nat),
      List.Sublist
        ((select_top_complaint_types df nt mc).rows.map Row.unique_key)
        (df.rows.map Row.unique_key)) ∧
    (∀ (parse : String → Option Int) (df : List RawRow) (p : Rat)
       (nt mc : Option Nat),
      List.Sublist
        ((clean_nyc311_data parse df p nt mc).rows.map Row.unique_key)
        (df.map RawRow.unique_key)) := by
  refine ⟨convert_keys, compute_keys,
    fun df rc rcl rb =>
      (filter_invalid_rows_sublist df rc rcl rb).map Row.unique_key,
    standardize_keys,
    fun df => (dedupGo_sublist df.rows []).map Row.unique_key,
    winsorize_keys,
    fun df nt mc => (select_sublist df nt mc).map Row.unique_key, ?_⟩
  intro parse df p nt mc
  have hbase : List.Sublist
      ((winsorize_response_time (remove_duplicates
        (standardize_channel_type (filter_invalid_rows
          (compute_response_time (convert_dates_to_datetime parse df))
          true true true))) p).rows.map Row.unique_key)
      (df.map RawRow.unique_key) := by
    rw [winsorize_keys]
    refine List.Sublist.trans
      ((dedupGo_sublist _ _).map Row.unique_key) ?_
    rw [standardize_keys]
    refine List.Sublist.trans
      ((filter_invalid_rows_sublist _ _ _ _).map Row.unique_key) ?_
    rw [compute_keys, convert_keys]
  simp only [clean_nyc311_data]
  cases hcond : (nt.isSome || mc.isSome) with
  | false =>
    rw [if_neg (by simp [hcond])]
    exact hbase
  | true =>
    rw [if_pos (by simp [hcond])]
    exact List.Sublist.trans
      ((select_sublist _ nt mc).map Row.unique_key) hbase

end NYC311
